import Mathlib

/-!
Shallow embedding of the `ville` lexical scanner (`src/lang/scan.rs`).

The scanner state (Rust `Enumerate<Chars<'src>>`) is modelled as the list of
characters not yet consumed; the enumeration indices are bound but never used
by the scanner, so they are dropped.  Rust `char::is_alphabetic`,
`char::is_numeric` and `char::is_digit(10)` are modelled by `Char.isAlpha`
and `Char.isDigit`, with which they agree on ASCII input.  The imperative
`loop` in `source` becomes fuel-indexed structural recursion; the fuel
`input.length + 1` is enough because every iteration consumes at least one
character.
-/

set_option autoImplicit false

namespace Ville

/-- Error enum of scan.rs (lines 9-14). -/
inductive Error where
  | File
  | Terminal
  | EndOfFile
  deriving DecidableEq

/-- Type alias `pub type TokenStr = String` (scan.rs:16). -/
abbrev TokenStr := String

/-- Token enum of scan.rs (lines 18-57). -/
inductive Token where
  | LeftParen
  | RightParen
  | LeftBrace
  | RightBrace
  | LeftBracket
  | RightBracket
  | Comma
  | Dot
  | Colon
  | Semicolon
  | Slash
  | SlashEqual
  | Star
  | StarEqual
  | Mod
  | Plus
  | PlusPlus
  | PlusEqual
  | Minus
  | MinusMinus
  | MinusEqual
  | Bang
  | BangEqual
  | Equal
  | EqualEqual
  | Greater
  | GreaterEqual
  | Less
  | LessEqual
  | And
  | Identifier (s : TokenStr)
  | String (s : TokenStr)
  | Number (s : TokenStr)
  | End
  deriving DecidableEq

/-- Decidable equality for `Except` results, used to state refutations of
the spec's expected outputs. -/
instance {ε α : Type} [DecidableEq ε] [DecidableEq α] : DecidableEq (Except ε α)
  | .error a, .error b =>
    if h : a = b then .isTrue (congrArg Except.error h)
    else .isFalse (fun hh => h (Except.error.inj hh))
  | .error _, .ok _ => .isFalse (fun hh => Except.noConfusion hh)
  | .ok _, .error _ => .isFalse (fun hh => Except.noConfusion hh)
  | .ok a, .ok b =>
    if h : a = b then .isTrue (congrArg Except.ok h)
    else .isFalse (fun hh => h (Except.ok.inj hh))

/-- `fn is_identifier(terminal: &char) -> bool` (scan.rs:59-64):
alphabetic or decimal digit (underscore is NOT accepted). -/
def is_identifier (terminal : Char) : Bool :=
  terminal.isAlpha || terminal.isDigit

/-- Rust `char::is_numeric`, restricted to ASCII where it coincides with
`is_digit(10)`; used by the dispatch test in `source` (scan.rs:131). -/
def is_numeric (terminal : Char) : Bool :=
  terminal.isDigit

/-- `Scanner::peek` (scan.rs:71-77): clone the iterator, look at its next
character, compare.  The receiver is `&self`, so the scanner state cannot
change; the embedding is a pure function of the unconsumed characters. -/
def peek (source : List Char) (terminal : Char) : Bool :=
  match source with
  | [] => false
  | p :: _ => p == terminal

/-- `Scanner::peek` as an explicit state transition: Rust `peek` takes
`&self` and inspects only a clone, so the state component is returned
unchanged. -/
def peekStep (source : List Char) (terminal : Char) : Bool × List Char :=
  (peek source terminal, source)

/-- `Scanner::match_char` (scan.rs:79-87).  Note the faithful translation of
the consume-then-test order: `self.source.next()` is called BEFORE the
comparison, so the head character is consumed even when it differs from
`terminal`. -/
def match_char (source : List Char) (terminal : Char) : Bool × List Char :=
  match source with
  | [] => (false, [])
  | peek_term :: rest => if peek_term == terminal then (true, rest) else (false, rest)

/-- Accumulation loop of `Scanner::number` (scan.rs:91-96): while the next
character is a decimal digit, consume it and push it onto the token text. -/
def numberAux : List Char → TokenStr → TokenStr × List Char
  | [], acc => (acc, [])
  | c :: rest, acc => if c.isDigit then numberAux rest (acc.push c) else (acc, c :: rest)

/-- `Scanner::number` (scan.rs:89-98): start from the already-consumed
initial character and accumulate following digits. -/
def number (source : List Char) (init : Char) : Token × List Char :=
  (Token.Number (numberAux source (String.mk [init])).1,
   (numberAux source (String.mk [init])).2)

/-- Accumulation loop of `Scanner::identifier` (scan.rs:102-107): while the
next character satisfies `is_identifier`, consume it and push it onto the
token text. -/
def identifierAux : List Char → TokenStr → TokenStr × List Char
  | [], acc => (acc, [])
  | c :: rest, acc => if is_identifier c then identifierAux rest (acc.push c) else (acc, c :: rest)

/-- `Scanner::identifier` (scan.rs:100-109). -/
def identifier (source : List Char) (init : Char) : Token × List Char :=
  (Token.Identifier (identifierAux source (String.mk [init])).1,
   (identifierAux source (String.mk [init])).2)

/-- `fn multi` (scan.rs:156-206).  The `&` arm falls through to the trailing
alphabetic test when the second `&` is absent, with the scanner already
advanced by the failed `match_char`; all other failed two-character matches
return the one-character token with the (already advanced) state. -/
def multi (source : List Char) (terminal : Char) : Except Error (Token × List Char) :=
  if terminal == '=' then
    let r := match_char source '='
    if r.1 then .ok (Token.EqualEqual, r.2) else .ok (Token.Equal, r.2)
  else if terminal == '!' then
    let r := match_char source '='
    if r.1 then .ok (Token.BangEqual, r.2) else .ok (Token.Bang, r.2)
  else if terminal == '*' then
    let r := match_char source '='
    if r.1 then .ok (Token.StarEqual, r.2) else .ok (Token.Star, r.2)
  else if terminal == '-' then
    let r := match_char source '='
    if r.1 then .ok (Token.MinusEqual, r.2) else .ok (Token.Minus, r.2)
  else if terminal == '/' then
    let r := match_char source '='
    if r.1 then .ok (Token.SlashEqual, r.2) else .ok (Token.Slash, r.2)
  else if terminal == '&' then
    let r := match_char source '&'
    if r.1 then .ok (Token.And, r.2)
    else if terminal.isAlpha then .ok (identifier r.2 terminal) else .error Error.Terminal
  else if terminal == '+' then
    let r := match_char source '='
    if r.1 then .ok (Token.PlusEqual, r.2) else .ok (Token.Plus, r.2)
  else if terminal.isAlpha then .ok (identifier source terminal)
  else .error Error.Terminal

/-- The single-character arms of the `match terminal` in `source`
(scan.rs:135-145): `'}' '{' ']' '[' ')' '(' '%' ';' ':' '='` each push one
fixed token.  `','` and `'.'` are NOT among them. -/
def single_token : Char → Option Token
  | '\x7d' => some Token.RightBrace
  | '\x7b' => some Token.LeftBrace
  | ']' => some Token.RightBracket
  | '[' => some Token.LeftBracket
  | ')' => some Token.RightParen
  | '(' => some Token.LeftParen
  | '%' => some Token.Mod
  | ';' => some Token.Semicolon
  | ':' => some Token.Colon
  | '=' => some Token.Equal
  | _ => none

/-- The `loop` of `pub fn source` (scan.rs:121-154), fuel-indexed.  Order of
tests as in the code: exhaustion pushes `End`; `is_numeric` dispatches to the
number accumulator; then the `match`: fixed single-character arms, the
whitespace arm `' ' | '\n'`, and the default arm calling `multi` and
propagating its error with `?`. -/
def sourceAux : Nat → List Char → Except Error (List Token)
  | 0, _ => .error Error.File
  | _ + 1, [] => .ok [Token.End]
  | fuel + 1, terminal :: rest =>
    if is_numeric terminal then
      (sourceAux fuel (number rest terminal).2).map
        (fun ts => (number rest terminal).1 :: ts)
    else
      match single_token terminal with
      | some tok => (sourceAux fuel rest).map (fun ts => tok :: ts)
      | none =>
        if terminal == ' ' || terminal == '\n' then sourceAux fuel rest
        else
          match multi rest terminal with
          | .error e => .error e
          | .ok r => (sourceAux fuel r.2).map (fun ts => r.1 :: ts)

/-- `pub fn source(input: String)` (scan.rs:121-154): run the scan loop over
the input's characters.  `input.length + 1` steps of fuel always suffice
because every loop iteration consumes at least one character. -/
def source (input : String) : Except Error (List Token) :=
  sourceAux (input.length + 1) input.data

/-- Characters of the input accounted to one token: payload length for
payload-bearing tokens, 2 for two-character operators, 0 for the `End`
sentinel, 1 for every other (single-character) token. -/
def tokenChars : Token → Nat
  | .Identifier s => s.length
  | .String s => s.length
  | .Number s => s.length
  | .End => 0
  | .SlashEqual => 2
  | .StarEqual => 2
  | .PlusPlus => 2
  | .PlusEqual => 2
  | .MinusMinus => 2
  | .MinusEqual => 2
  | .BangEqual => 2
  | .EqualEqual => 2
  | .GreaterEqual => 2
  | .LessEqual => 2
  | .And => 2
  | _ => 1

/-- Number of whitespace characters (the `' ' | '\n'` arm) in an input. -/
def wsCount (input : String) : Nat :=
  (input.data.filter (fun c => c == ' ' || c == '\n')).length

/-- Tokens that some run of the scan loop can append before the `End`
sentinel: the ten single-character arms of `source`, the results of `multi`,
and `Number`/`Identifier` payload tokens.  Excludes `End`, `Comma`, `Dot`,
`PlusPlus`, `MinusMinus`, `Greater`, `GreaterEqual`, `Less`, `LessEqual`
and `String`, which no code path constructs. -/
def emittable : Token → Bool
  | .End => false
  | .Comma => false
  | .Dot => false
  | .PlusPlus => false
  | .MinusMinus => false
  | .Greater => false
  | .GreaterEqual => false
  | .Less => false
  | .LessEqual => false
  | .String _ => false
  | _ => true

/-- The five Token variants claim C10 singles out as unreachable. -/
def forbidden : Token → Bool
  | .Greater => true
  | .GreaterEqual => true
  | .Less => true
  | .LessEqual => true
  | .String _ => true
  | _ => false

/-- Inversion for `Except.map` returning `ok`. -/
theorem exceptMap_ok {ε α β : Type} {f : α → β} {x : Except ε α} {b : β}
    (h : x.map f = .ok b) : ∃ a, x = .ok a ∧ b = f a := by
  cases x with
  | error e => simp [Except.map] at h
  | ok a => exact ⟨a, rfl, by simpa [Except.map] using h.symm⟩

/-- A successful `single_token` lookup yields an emittable token. -/
theorem single_token_emittable {c : Char} {tok : Token}
    (h : single_token c = some tok) : emittable tok = true := by
  unfold single_token at h
  repeat' split at h
  all_goals first
    | exact Option.noConfusion h
    | (injection h with h; subst h; rfl)

/-- A successful run of `multi` yields an emittable token. -/
theorem multi_ok_emittable {s : List Char} {t : Char} {r : Token × List Char}
    (h : multi s t = .ok r) : emittable r.1 = true := by
  simp only [multi] at h
  repeat' split at h
  all_goals first
    | exact Except.noConfusion h
    | (injection h with h; subst h; rfl)

/-- Shape invariant of the scan loop: every successful result is a list of
emittable tokens followed by exactly one `End` sentinel. -/
theorem sourceAux_ok_shape : ∀ (fuel : Nat) (chars : List Char) (toks : List Token),
    sourceAux fuel chars = .ok toks →
    ∃ body, toks = body ++ [Token.End] ∧ ∀ t ∈ body, emittable t = true := by
  intro fuel
  induction fuel with
  | zero =>
    intro chars toks h
    exact absurd h (by simp [sourceAux])
  | succ fuel ih =>
    intro chars toks h
    cases chars with
    | nil =>
      simp only [sourceAux] at h
      injection h with h
      exact ⟨[], h.symm, by simp⟩
    | cons terminal rest =>
      simp only [sourceAux] at h
      split at h
      · obtain ⟨ts, hx, rfl⟩ := exceptMap_ok h
        obtain ⟨body, rfl, hb⟩ := ih _ ts hx
        refine ⟨(number rest terminal).1 :: body, rfl, ?_⟩
        intro t ht
        rcases List.mem_cons.mp ht with rfl | ht
        · rfl
        · exact hb t ht
      · split at h
        next tok hst =>
          obtain ⟨ts, hx, rfl⟩ := exceptMap_ok h
          obtain ⟨body, rfl, hb⟩ := ih _ ts hx
          refine ⟨tok :: body, rfl, ?_⟩
          intro t ht
          rcases List.mem_cons.mp ht with rfl | ht
          · exact single_token_emittable hst
          · exact hb t ht
        next hst =>
          split at h
          · exact ih _ _ h
          · split at h
            next e hm => exact Except.noConfusion h
            next r hm =>
              obtain ⟨ts, hx, rfl⟩ := exceptMap_ok h
              obtain ⟨body, rfl, hb⟩ := ih _ ts hx
              refine ⟨r.1 :: body, rfl, ?_⟩
              intro t ht
              rcases List.mem_cons.mp ht with rfl | ht
              · exact multi_ok_emittable hm
              · exact hb t ht

/-- The identifier accumulation loop consumes exactly the maximal prefix of
characters satisfying `is_identifier` and leaves the rest unconsumed. -/
theorem identifierAux_spec : ∀ (s : List Char) (acc : TokenStr),
    identifierAux s acc =
      (String.mk (acc.data ++ s.takeWhile is_identifier), s.dropWhile is_identifier) := by
  intro s
  induction s with
  | nil => intro acc; simp [identifierAux]
  | cons c rest ih =>
    intro acc
    cases hc : is_identifier c with
    | true =>
      simp [identifierAux, hc, List.takeWhile_cons, List.dropWhile_cons, ih, String.push,
        List.append_assoc]
    | false =>
      simp [identifierAux, hc, List.takeWhile_cons, List.dropWhile_cons]

/-- C1: the claim fails on the code.  `match_char` advances the iterator
before comparing, so when the next character differs from the argument the
cursor does NOT stay where it was: with remaining input `['a']`,
`match_char '='` returns false but the 'a' has been consumed. -/
theorem C1_match_char_consumes_on_mismatch :
    (match_char ['a'] '=').1 = false ∧ (match_char ['a'] '=').2 ≠ ['a'] :=
  ⟨rfl, by decide⟩

/-- C2: the claim fails on the code.  The main loop's `match` handles '='
directly (scan.rs:145) and pushes `Equal`, so '=' never reaches `multi`:
scanning "==" yields `[Equal, Equal, End]`, not `[EqualEqual, End]`.  The
second conjunct shows the unreachable '=' arm of `multi` (scan.rs:158-163)
would have produced `EqualEqual`, evidencing the intended maximal munch. -/
theorem C2_double_equal_two_tokens :
    source "==" = .ok [Token.Equal, Token.Equal, Token.End] ∧
    multi ['='] '=' = .ok (Token.EqualEqual, ([] : List Char)) :=
  ⟨rfl, rfl⟩

/-- C3: the claim fails on the code.  Scanning "!a" succeeds with
`[Bang, End]`: the 'a' is silently consumed by the failed `match_char('=')`
inside the '!' resolver, so the accounted length (1 token character, no
whitespace) differs from the input length 2. -/
theorem C3_coverage_violated_on_bang_a :
    source "!a" = .ok [Token.Bang, Token.End] ∧
    ([Token.Bang, Token.End].map tokenChars).sum + wsCount "!a" ≠ "!a".length :=
  ⟨rfl, by decide⟩

/-- C4: the claim fails on the code.  On the spec's literal input the failed
`match_char('=')` after the first '+' consumes the '1', so the scanner
returns `Number("2")` where the claim (and the repository's own `test_plus`)
expect `Number("12")`. -/
theorem C4_plus_example_diverges :
    source "78+12;23+=98;" = .ok [Token.Number "78", Token.Plus,
      Token.Number "2", Token.Semicolon, Token.Number "23", Token.PlusEqual,
      Token.Number "98", Token.Semicolon, Token.End] ∧
    source "78+12;23+=98;" ≠ .ok [Token.Number "78", Token.Plus,
      Token.Number "12", Token.Semicolon, Token.Number "23", Token.PlusEqual,
      Token.Number "98", Token.Semicolon, Token.End] :=
  ⟨rfl, by decide⟩

/-- C5 counterexample: ',' and '.' are not in the single-character arm set of
`source` (scan.rs:135-145); they fall through to `multi`, which rejects them,
so scanning "," does not produce `[Comma, End]` but a terminal error, and
likewise for ".". -/
theorem C5_counterexample_comma_dot_rejected :
    source "," = .error Error.Terminal ∧
    source "," ≠ .ok [Token.Comma, Token.End] ∧
    source "." = .error Error.Terminal ∧
    source "." ≠ .ok [Token.Dot, Token.End] :=
  ⟨rfl, by decide, rfl, by decide⟩

/-- C5 (amended): the fixed single-character set handled by the main loop is
`( ) { } [ ] : ; %`; each such character is appended as its
corresponding token and scanning continues with the rest of the input, while
',' and '.' are not in the set and make the scan fail with the terminal
error. -/
theorem C5_single_char_dispatch :
    (∀ (fuel : Nat) (rest : List Char),
      sourceAux (fuel + 1) ('(' :: rest)
        = (sourceAux fuel rest).map (fun ts => Token.LeftParen :: ts) ∧
      sourceAux (fuel + 1) (')' :: rest)
        = (sourceAux fuel rest).map (fun ts => Token.RightParen :: ts) ∧
      sourceAux (fuel + 1) ('\x7b' :: rest)
        = (sourceAux fuel rest).map (fun ts => Token.LeftBrace :: ts) ∧
      sourceAux (fuel + 1) ('\x7d' :: rest)
        = (sourceAux fuel rest).map (fun ts => Token.RightBrace :: ts) ∧
      sourceAux (fuel + 1) ('[' :: rest)
        = (sourceAux fuel rest).map (fun ts => Token.LeftBracket :: ts) ∧
      sourceAux (fuel + 1) (']' :: rest)
        = (sourceAux fuel rest).map (fun ts => Token.RightBracket :: ts) ∧
      sourceAux (fuel + 1) (':' :: rest)
        = (sourceAux fuel rest).map (fun ts => Token.Colon :: ts) ∧
      sourceAux (fuel + 1) (';' :: rest)
        = (sourceAux fuel rest).map (fun ts => Token.Semicolon :: ts) ∧
      sourceAux (fuel + 1) ('%' :: rest)
        = (sourceAux fuel rest).map (fun ts => Token.Mod :: ts) ∧
      sourceAux (fuel + 1) (',' :: rest) = .error Error.Terminal ∧
      sourceAux (fuel + 1) ('.' :: rest) = .error Error.Terminal) ∧
    source ":" = .ok [Token.Colon, Token.End] ∧
    source "," = .error Error.Terminal := by
  exact ⟨fun fuel rest => ⟨rfl, rfl, rfl, rfl, rfl, rfl, rfl, rfl, rfl, rfl, rfl⟩, rfl, rfl⟩

/-- C5 witness: the dispatch equations instantiated at fuel 0 and the empty
remainder. -/
theorem C5_single_char_dispatch_witness :
    sourceAux 1 ['('] = (sourceAux 0 []).map (fun ts => Token.LeftParen :: ts) ∧
    sourceAux 1 [')'] = (sourceAux 0 []).map (fun ts => Token.RightParen :: ts) ∧
    sourceAux 1 ['\x7b'] = (sourceAux 0 []).map (fun ts => Token.LeftBrace :: ts) ∧
    sourceAux 1 ['\x7d'] = (sourceAux 0 []).map (fun ts => Token.RightBrace :: ts) ∧
    sourceAux 1 ['['] = (sourceAux 0 []).map (fun ts => Token.LeftBracket :: ts) ∧
    sourceAux 1 [']'] = (sourceAux 0 []).map (fun ts => Token.RightBracket :: ts) ∧
    sourceAux 1 [':'] = (sourceAux 0 []).map (fun ts => Token.Colon :: ts) ∧
    sourceAux 1 [';'] = (sourceAux 0 []).map (fun ts => Token.Semicolon :: ts) ∧
    sourceAux 1 ['%'] = (sourceAux 0 []).map (fun ts => Token.Mod :: ts) ∧
    sourceAux 1 [','] = .error Error.Terminal ∧
    sourceAux 1 ['.'] = .error Error.Terminal :=
  C5_single_char_dispatch.1 0 []

/-- C6 counterexample: underscore is not accepted by `is_identifier`
(scan.rs:59-64 checks alphabetic-or-digit only), so scanning "a_b" does not
produce `Identifier("a_b")`: the identifier stops at the '_' and the scan
then fails on it with the terminal error. -/
theorem C6_counterexample_underscore_rejected :
    source "a_b" = .error Error.Terminal ∧
    source "a_b" ≠ .ok [Token.Identifier "a_b", Token.End] :=
  ⟨rfl, by decide⟩

/-- C6 (amended): an `Identifier` token's text is the maximal run of
alphabetic-or-digit characters (underscore excluded) starting at the
already-consumed initial character: the accumulator consumes exactly the
longest such prefix and leaves the first character outside the class
unconsumed; scanning "ab1c" succeeds with `[Identifier("ab1c"), End]`. -/
theorem C6_identifier_maximal_alnum_run :
    (∀ (s : List Char) (init : Char),
      identifier s init =
        (Token.Identifier (String.mk (init :: s.takeWhile is_identifier)),
         s.dropWhile is_identifier)) ∧
    source "ab1c" = .ok [Token.Identifier "ab1c", Token.End] := by
  refine ⟨fun s init => ?_, rfl⟩
  simp [identifier, identifierAux_spec]

/-- C6 witness: the maximal-run equation instantiated at a concrete
remainder and initial character. -/
theorem C6_identifier_maximal_alnum_run_witness :
    identifier ['b', '1', '+'] 'a' =
      (Token.Identifier (String.mk ('a' :: ['b', '1', '+'].takeWhile is_identifier)),
       ['b', '1', '+'].dropWhile is_identifier) :=
  C6_identifier_maximal_alnum_run.1 ['b', '1', '+'] 'a'

/-- C7: every successful scan returns a nonempty token list that is a list of
non-`End` tokens followed by exactly one final `End`; the empty input scans
to exactly `[End]`. -/
theorem C7_end_sentinel_last :
    (∀ (input : String) (toks : List Token), source input = .ok toks →
      ∃ body, toks = body ++ [Token.End] ∧ Token.End ∉ body) ∧
    source "" = .ok [Token.End] := by
  refine ⟨fun input toks h => ?_, rfl⟩
  obtain ⟨body, rfl, hb⟩ := sourceAux_ok_shape _ _ _ h
  exact ⟨body, rfl, fun hmem => by simpa [emittable] using hb _ hmem⟩

/-- C7 witness: the sentinel property instantiated at the empty input. -/
theorem C7_end_sentinel_last_witness :
    ∃ body, ([Token.End] : List Token) = body ++ [Token.End] ∧ Token.End ∉ body :=
  C7_end_sentinel_last.1 "" [Token.End] rfl

/-- C8: the claim fails on the code.  The input "!&" contains a bare '&'
(neither preceded nor followed by another '&'), yet `source` SUCCEEDS with
`[Bang, End]`: the '&' is consumed by the failed `match_char('=')` of the
'!' resolver.  A bare '&' reaching the classifier does fail, as the third
conjunct shows. -/
theorem C8_bare_amp_swallowed :
    source "!&" = .ok [Token.Bang, Token.End] ∧ '&' ∈ "!&".data ∧
    source "&" = .error Error.Terminal :=
  ⟨rfl, by decide, rfl⟩

/-- C9: `peek` is idempotent and non-mutating: run as a state transition it
returns the same boolean on two consecutive calls and leaves the scanner
state where it started. -/
theorem C9_peek_idempotent (s : List Char) (c : Char) :
    (peekStep s c).1 = (peekStep (peekStep s c).2 c).1 ∧
    (peekStep (peekStep s c).2 c).2 = s :=
  ⟨rfl, rfl⟩

/-- C9 witness: peek idempotence instantiated at a concrete scanner state. -/
theorem C9_peek_idempotent_witness :
    (peekStep ['a'] 'a').1 = (peekStep (peekStep ['a'] 'a').2 'a').1 ∧
    (peekStep (peekStep ['a'] 'a').2 'a').2 = ['a'] :=
  C9_peek_idempotent ['a'] 'a'

/-- C10 counterexample: the input "!<" contains a '<' yet `source` succeeds:
the '<' is consumed by the failed `match_char('=')` of the '!' resolver, so
"every input containing a '<' or '>' makes source fail" is false. -/
theorem C10_counterexample_lt_scanned_ok :
    '<' ∈ "!<".data ∧ source "!<" = .ok [Token.Bang, Token.End] :=
  ⟨by decide, rfl⟩

/-- C10 (amended): the variants `Greater`, `GreaterEqual`, `Less`,
`LessEqual` and `String` are never produced by `source` for any input; a '<'
or '>' reaching the classifier makes the scan fail with the terminal error
(e.g. the inputs "<" and ">"), though such a character can instead be
silently consumed by a failed two-character-operator match. -/
theorem C10_unreachable_variants :
    (∀ (input : String) (toks : List Token), source input = .ok toks →
      ∀ t ∈ toks, forbidden t = false) ∧
    source "<" = .error Error.Terminal ∧ source ">" = .error Error.Terminal := by
  refine ⟨fun input toks h t ht => ?_, rfl, rfl⟩
  obtain ⟨body, rfl, hb⟩ := sourceAux_ok_shape _ _ _ h
  rcases List.mem_append.mp ht with hmem | hmem
  · have he := hb t hmem
    revert he
    cases t <;> simp [emittable, forbidden]
  · have ht' := List.mem_singleton.mp hmem
    subst ht'
    rfl

/-- C10 witness: the never-produced property instantiated at the empty
input's token list. -/
theorem C10_unreachable_variants_witness : forbidden Token.End = false :=
  C10_unreachable_variants.1 "" [Token.End] rfl Token.End (List.mem_singleton.mpr rfl)

end Ville
